import Mathlib

set_option maxHeartbeats 1000000

/-!
Shallow embedding of `src/update_fng_btc.py`.

The script fetches the Fear & Greed index and the BTC price, merges the two
time-indexed frames on their `timestamp` index, appends the merged row to a
local CSV ledger (deduplicating on the formatted date), provisions a Dune
table and uploads the row.  Network responses, the environment variable
`DUNE_API_KEY`, the state of the local CSV file and the success of the CSV
write are the inputs of the embedding; every observable action (HTTP
attempt, sleep, ledger read, header/row write, table create, insert, upload)
is recorded in an event trace.
-/

/-- The two HTTP GET sources of the script. -/
inductive Src where
  | fng
  | btc
deriving DecidableEq

/-- One row of the local CSV ledger `fear_greed_btc_data.csv`
(columns `timestamp,value,value_classification,BTCUSD`); the timestamp is
stored as the string pandas' `to_csv` produced for it. -/
structure LedgerRow where
  timestamp : String
  value : Int
  value_classification : Option String
  BTCUSD : Rat
deriving DecidableEq

/-- Observable events of a run, in program order. -/
inductive Ev where
  | attempt (s : Src) (i : Nat)
  | sleep (secs : Nat)
  | readLedger
  | appendHeader
  | appendRow (r : LedgerRow)
  | appendFail
  | netCreate
  | netUpload
  | netInsert (batch : Nat) (size : Nat) (ok : Bool)
deriving DecidableEq

/-- Outcome of one `requests` call: a transport-level exception
(`requests.RequestException`) or a response with a status code and a body. -/
inductive HttpAttempt (β : Type) where
  | exn
  | resp (status : Nat) (body : β)

/-- JSON body of the FNG endpoint: optionally a `data` array of records,
each record an association list of string keys to string values
(the FNG API reports `value` and `timestamp` as strings). -/
structure FngBody where
  dataField : Option (List (List (String × String)))

/-- JSON body of the CoinGecko endpoint: optionally a `prices` array of
`[epoch-milliseconds, price]` pairs. -/
structure BtcBody where
  prices : Option (List (Int × Rat))

/-- Result of one fetch function: a decoded frame, `None` returned after a
logged failure, or an uncaught Python exception escaping the function. -/
inductive FetchResult (α : Type) where
  | ok (a : α)
  | failure
  | crash
deriving DecidableEq

/-- A decoded FNG row: index timestamp in epoch milliseconds
(`pd.to_datetime(..., unit='s')` of the integer seconds), the integer
`value` and the optional `value_classification`. -/
structure FngEntry where
  tsMs : Int
  value : Int
  cls : Option String
deriving DecidableEq

/-- A decoded BTC row: index timestamp in epoch milliseconds
(`pd.to_datetime(..., unit='ms')`) and the price. -/
structure BtcEntry where
  tsMs : Int
  price : Rat
deriving DecidableEq

/-- A row of the inner-merged frame `d`. -/
structure Merged where
  tsMs : Int
  value : Int
  cls : Option String
  price : Rat
deriving DecidableEq

/-- The check `key in df.columns` for a DataFrame built from a list of records:
the column exists iff some record carries the key. -/
def colMem (key : String) (recs : List (List (String × String))) : Bool :=
  recs.any (fun r => r.any (fun kv => kv.1 == key))

/-- A run of decimal digits as a number, `none` on a non-digit or on the
empty string. -/
def digitsToNat : List Char → Nat → Option Nat
  | [], acc => some acc
  | c :: cs, acc =>
    if c.isDigit then digitsToNat cs (10 * acc + (c.toNat - 48)) else none

/-- Python `int(s)` on a string: an optional sign followed by at least one
decimal digit; anything else raises (modelled as `none`). -/
def strToInt (s : String) : Option Int :=
  match s.data with
  | [] => none
  | '-' :: cs =>
    match cs with
    | [] => none
    | _ => (digitsToNat cs 0).map (fun n => -(n : Int))
  | '+' :: cs =>
    match cs with
    | [] => none
    | _ => (digitsToNat cs 0).map (fun n => (n : Int))
  | cs => (digitsToNat cs 0).map (fun n => (n : Int))

/-- The coercion `df[key].astype(int)`: every record must carry the key and the value
must parse as an integer, otherwise pandas raises (modelled as `none`). -/
def colIntVals (key : String) (recs : List (List (String × String))) :
    Option (List Int) :=
  recs.mapM (fun r => (List.lookup key r).bind (fun s => strToInt s))

/-- Lines 12-20 of the script, applied to a 200 response body:
`r.json()['data']` raises `KeyError` when `data` is absent (crash);
a missing `timestamp` column is logged and `None` is returned (failure);
`astype(int)` on `value`/`timestamp` raises on a missing key or a
non-numeric string (crash); otherwise the decoded frame is returned, the
second-resolution timestamps scaled to milliseconds by `to_datetime`. -/
def fngParse (b : FngBody) : FetchResult (List FngEntry) :=
  match b.dataField with
  | none => FetchResult.crash
  | some recs =>
    if colMem "timestamp" recs then
      match colIntVals "value" recs, colIntVals "timestamp" recs with
      | some vs, some ts =>
        let cls := recs.map (fun r => List.lookup "value_classification" r)
        FetchResult.ok
          ((vs.zip (ts.zip cls)).map (fun vtc => ⟨1000 * vtc.2.1, vtc.1, vtc.2.2⟩))
      | _, _ => FetchResult.crash
    else FetchResult.failure

/-- Lines 35-38 of the script on a 200 response body:
`r.json()['prices']` raises `KeyError` when `prices` is absent (crash);
otherwise the frame is built, indexed by the millisecond timestamps, and
`iloc[0:1]` keeps only the first row. -/
def btcParse (b : BtcBody) : FetchResult (List BtcEntry) :=
  match b.prices with
  | none => FetchResult.crash
  | some ps => FetchResult.ok ((ps.map (fun p => (⟨p.1, p.2⟩ : BtcEntry))).take 1)

/-- The retry loop of `fetch_fng_data` (`for attempt in range(3)`), with
`k` attempts remaining and `i` the current attempt index.  A transport
exception or a non-200 status logs and sleeps 10 seconds before the next
iteration; a 200 response is decoded immediately and the loop exits. -/
def fngGo (env : Nat → HttpAttempt FngBody) :
    Nat → Nat → List Ev × FetchResult (List FngEntry)
  | 0, _ => ([], FetchResult.failure)
  | k + 1, i =>
    match env i with
    | HttpAttempt.exn =>
      let r := fngGo env k (i + 1)
      (Ev.attempt Src.fng i :: Ev.sleep 10 :: r.1, r.2)
    | HttpAttempt.resp s b =>
      if s = 200 then ([Ev.attempt Src.fng i], fngParse b)
      else
        let r := fngGo env k (i + 1)
        (Ev.attempt Src.fng i :: Ev.sleep 10 :: r.1, r.2)

/-- Function `fetch_fng_data` (lines 7-27): three attempts against the FNG API. -/
def fetch_fng_data (env : Nat → HttpAttempt FngBody) :
    List Ev × FetchResult (List FngEntry) :=
  fngGo env 3 0

/-- The retry loop of `fetch_btc_data`, same shape as `fngGo`. -/
def btcGo (env : Nat → HttpAttempt BtcBody) :
    Nat → Nat → List Ev × FetchResult (List BtcEntry)
  | 0, _ => ([], FetchResult.failure)
  | k + 1, i =>
    match env i with
    | HttpAttempt.exn =>
      let r := btcGo env k (i + 1)
      (Ev.attempt Src.btc i :: Ev.sleep 10 :: r.1, r.2)
    | HttpAttempt.resp s b =>
      if s = 200 then ([Ev.attempt Src.btc i], btcParse b)
      else
        let r := btcGo env k (i + 1)
        (Ev.attempt Src.btc i :: Ev.sleep 10 :: r.1, r.2)

/-- Function `fetch_btc_data` (lines 30-45): three attempts against CoinGecko. -/
def fetch_btc_data (env : Nat → HttpAttempt BtcBody) :
    List Ev × FetchResult (List BtcEntry) :=
  btcGo env 3 0

/-- Zero-padded two-digit decimal. -/
def pad2 (n : Nat) : String := if n < 10 then "0" ++ toString n else toString n

/-- Zero-padded four-digit decimal (years). -/
def pad4 (n : Nat) : String :=
  if n < 10 then "000" ++ toString n
  else if n < 100 then "00" ++ toString n
  else if n < 1000 then "0" ++ toString n
  else toString n

/-- Zero-padded six-digit decimal (microseconds). -/
def pad6 (n : Nat) : String :=
  if n < 10 then "00000" ++ toString n
  else if n < 100 then "0000" ++ toString n
  else if n < 1000 then "000" ++ toString n
  else if n < 10000 then "00" ++ toString n
  else if n < 100000 then "0" ++ toString n
  else toString n

/-- Proleptic-Gregorian civil date from days since 1970-01-01
(the standard days-from-epoch conversion): `(year, month, day)`. -/
def civilFromDays (z0 : Int) : Int × Nat × Nat :=
  let z := z0 + 719468
  let era := z.fdiv 146097
  let doe := (z - era * 146097).toNat
  let yoe := (doe - doe / 1460 + doe / 36524 - doe / 146096) / 365
  let y := era * 400 + yoe
  let doy := doe - (365 * yoe + yoe / 4 - yoe / 100)
  let mp := (5 * doy + 2) / 153
  let d := doy - (153 * mp + 2) / 5 + 1
  let m := if mp < 10 then mp + 3 else mp - 9
  (if m ≤ 2 then y + 1 else y, m, d)

/-- Format `strftime('%Y-%m-%d')` of an epoch-millisecond timestamp. -/
def dateStrOfMs (ms : Int) : String :=
  let c := civilFromDays (ms.fdiv 86400000)
  pad4 c.1.toNat ++ "-" ++ pad2 c.2.1 ++ "-" ++ pad2 c.2.2

/-- The string `str(pd.Timestamp(...))` used by `to_csv` for a timestamp
column that is not dates-only: `YYYY-MM-DD HH:MM:SS[.ffffff]`. -/
def fullTsStr (ms : Int) : String :=
  let rem := (ms.emod 86400000).toNat
  dateStrOfMs ms ++ " " ++ pad2 (rem / 3600000) ++ ":" ++
    pad2 (rem % 3600000 / 60000) ++ ":" ++ pad2 (rem % 60000 / 1000) ++
    (if rem % 1000 = 0 then "" else "." ++ pad6 (rem % 1000 * 1000))

/-- The calendar day (days since epoch) of an epoch-millisecond timestamp. -/
def dayOfMs (ms : Int) : Int := ms.fdiv 86400000

/-- The merged row built by `pd.merge` from one FNG row and one BTC row. -/
def mkMerged (f : FngEntry) (b : BtcEntry) : Merged :=
  ⟨f.tsMs, f.value, f.cls, b.price⟩

/-- Merge `pd.merge(fng_df, btc_df, how='inner', left_index=True, right_index=True)`
(line 162): for each left row, every right row with an equal index
timestamp yields a merged row; order follows the left frame. -/
def mergeRows : List FngEntry → List BtcEntry → List Merged
  | [], _ => []
  | f :: fs, bs =>
    (bs.filter (fun b => b.tsMs == f.tsMs)).map (mkMerged f) ++ mergeRows fs bs

/-- The ledger rows `to_csv` writes for the merged frame: pandas formats a
datetime column date-only exactly when every value is at midnight,
otherwise every value is written with its time of day. -/
def csvBatch (d : List Merged) : List LedgerRow :=
  let dOnly := d.all (fun r => r.tsMs.emod 86400000 == 0)
  d.map (fun r =>
    ⟨if dOnly then dateStrOfMs r.tsMs else fullTsStr r.tsMs, r.value, r.cls, r.price⟩)

/-- State of the local CSV file `fear_greed_btc_data.csv`: absent, present
but failing `pd.read_csv` (or lacking the `timestamp` column), or parsed
rows. -/
inductive FileState where
  | absent
  | corrupt
  | rows (rs : List LedgerRow)
deriving DecidableEq

/-- A lowercased string, as `response.text.lower()`. -/
def lowerStr (s : String) : String := String.mk (s.data.map Char.toLower)

/-- The check `"already exists" in response.text.lower()`. -/
def hasAlreadyExists (body : String) : Bool :=
  let hay := (lowerStr body).toList
  let needle := ("already exists").toList
  hay.tails.any (fun t => needle.isPrefixOf t)

/-- Function `create_dune_table` (lines 48-91): a missing `DUNE_API_KEY` is reported
before any network call; otherwise one POST is attempted and the call
succeeds on a 200 status or on a 400 status whose body mentions
"already exists"; every other outcome, including a transport exception,
returns `False`. -/
def create_dune_table (apiKey : Option String) (resp : HttpAttempt String) :
    List Ev × Bool :=
  match apiKey with
  | none => ([], false)
  | some _ =>
    match resp with
    | HttpAttempt.exn => ([Ev.netCreate], false)
    | HttpAttempt.resp s body =>
      if s = 200 then ([Ev.netCreate], true)
      else if s = 400 ∧ hasAlreadyExists body = true then ([Ev.netCreate], true)
      else ([Ev.netCreate], false)

/-- Whether a batch POST of the bulk import received a 200 response. -/
def respOk (r : HttpAttempt String) : Bool :=
  match r with
  | HttpAttempt.resp 200 _ => true
  | _ => false

/-- The batch loop of `import_historical_data`
(`for i in range(0, len(historical_df), batch_size)` with
`batch_size = 1000` and `batch_df = historical_df.iloc[i:i+batch_size]`,
written with the batch counter `j = i / 1000`): each batch POST is
attempted whatever the outcome of the previous ones, its outcome is only
logged, and `time.sleep(1)` follows every batch. -/
def importLoop (resp : Nat → HttpAttempt String) (rows : List LedgerRow) :
    List Ev :=
  ((List.range ((rows.length + 999) / 1000)).map (fun j =>
    [Ev.netInsert j ((rows.drop (1000 * j)).take 1000).length (respOk (resp j)),
     Ev.sleep 1])).flatten

/-- Function `import_historical_data` (lines 94-140): nothing happens when the file
is absent; a read failure is caught and logged; otherwise the rows are
uploaded in batches of at most 1000.  The script reads `DUNE_API_KEY` here
but never checks it, so the batch POSTs are attempted even without it. -/
def import_historical_data (apiKey : Option String) (file : FileState)
    (resp : Nat → HttpAttempt String) : List Ev :=
  match file with
  | FileState.absent => []
  | FileState.corrupt => [Ev.readLedger]
  | FileState.rows rs => Ev.readLedger :: importLoop resp rs

/-- The inputs of one cycle: the per-attempt responses of the two fetch
endpoints, the state of the local CSV, whether the CSV append succeeds,
`DUNE_API_KEY`, and the responses of the table-create and insert POSTs. -/
structure World where
  fngEnv : Nat → HttpAttempt FngBody
  btcEnv : Nat → HttpAttempt BtcBody
  file : FileState
  appendOk : Bool
  apiKey : Option String
  createResp : HttpAttempt String
  uploadResp : HttpAttempt String

/-- Result of one cycle: the event trace, the final state of the local CSV
and whether an exception escaped `update_dune_data`. -/
structure CycleOut where
  trace : List Ev
  file : FileState
  crashed : Bool

/-- Lines 178-219 of `update_dune_data`, reached once the merge produced
the nonempty frame `d` with first row `d0` and the ledger file was read
(`existing` are the stored timestamp strings, `fileExists0` whether the
file exists, `oldRows` its rows): duplicate check on the `%Y-%m-%d` string
of the first merged timestamp, append (with header iff the file did not
exist), table provisioning, upload. -/
def cycleTail (w : World) (pre : List Ev) (d : List Merged) (d0 : Merged)
    (fileExists0 : Bool) (oldRows : List LedgerRow) (existing : List String) :
    CycleOut :=
  if existing.contains (dateStrOfMs d0.tsMs) then
    ⟨pre, w.file, false⟩
  else if w.appendOk then
    let newRows := csvBatch d
    let hdrEv : List Ev := if fileExists0 then [] else [Ev.appendHeader]
    let file2 := FileState.rows (oldRows ++ newRows)
    let appendEvs := hdrEv ++ newRows.map Ev.appendRow
    match create_dune_table w.apiKey w.createResp with
    | (tc, true) => ⟨pre ++ appendEvs ++ tc ++ [Ev.netUpload], file2, false⟩
    | (tc, false) => ⟨pre ++ appendEvs ++ tc, file2, false⟩
  else
    ⟨pre ++ [Ev.appendFail], w.file, false⟩

/-- Function `update_dune_data` (lines 152-219): fetch both frames (a `None` result
ends the cycle; an uncaught fetch exception escapes), inner-merge them,
stop on an empty merge, read the ledger (a parse failure is caught and
ends the cycle), then `cycleTail`. -/
def update_dune_data (w : World) : CycleOut :=
  match fetch_fng_data w.fngEnv with
  | (tf, FetchResult.crash) => ⟨tf, w.file, true⟩
  | (tf, FetchResult.failure) => ⟨tf, w.file, false⟩
  | (tf, FetchResult.ok fng) =>
    match fetch_btc_data w.btcEnv with
    | (tb, FetchResult.crash) => ⟨tf ++ tb, w.file, true⟩
    | (tb, FetchResult.failure) => ⟨tf ++ tb, w.file, false⟩
    | (tb, FetchResult.ok btc) =>
      match mergeRows fng btc with
      | [] => ⟨tf ++ tb, w.file, false⟩
      | d0 :: drest =>
        match w.file with
        | FileState.corrupt => ⟨tf ++ tb ++ [Ev.readLedger], w.file, false⟩
        | FileState.absent =>
          cycleTail w (tf ++ tb) (d0 :: drest) d0 false [] []
        | FileState.rows rs =>
          cycleTail w (tf ++ tb ++ [Ev.readLedger]) (d0 :: drest) d0 true rs
            (rs.map (fun r => r.timestamp))

/-- The `__main__` block (lines 221-228): the bulk import runs first when
`IMPORT_HISTORICAL` is `'true'`, then the daily cycle. -/
def main_run (w : World) (importFlag : Bool)
    (histResp : Nat → HttpAttempt String) : List Ev × Bool :=
  let ti := if importFlag then import_historical_data w.apiKey w.file histResp else []
  let c := update_dune_data w
  (ti ++ c.trace, c.crashed)

/-- Events that are remote mutations of the Dune sink (table creation or
row insertion). -/
def isRemoteMut : Ev → Bool
  | Ev.netCreate => true
  | Ev.netUpload => true
  | Ev.netInsert _ _ _ => true
  | _ => false

/-- Events that write a data row to the local ledger. -/
def isAppendRowEv : Ev → Bool
  | Ev.appendRow _ => true
  | _ => false

/-- Events that mutate (or try to mutate) the ledger or the remote sink. -/
def isWriteOrUpload : Ev → Bool
  | Ev.appendHeader => true
  | Ev.appendRow _ => true
  | Ev.appendFail => true
  | Ev.netCreate => true
  | Ev.netUpload => true
  | Ev.netInsert _ _ _ => true
  | _ => false

/-- Events that mutate nothing: HTTP GET attempts, sleeps, ledger reads. -/
def isBenign : Ev → Bool
  | Ev.attempt _ _ => true
  | Ev.sleep _ => true
  | Ev.readLedger => true
  | _ => false

/-- A fetch attempt that fails in a retryable way: transport exception or
non-200 status. -/
def attemptFails {β : Type} : HttpAttempt β → Prop
  | HttpAttempt.exn => True
  | HttpAttempt.resp s _ => s ≠ 200

/-- The sizes of the insert batches recorded in a trace. -/
def insertSizes (t : List Ev) : List Nat :=
  t.filterMap (fun e => match e with
    | Ev.netInsert _ n _ => some n
    | _ => none)

/-- An FNG attempt outcome that cannot raise an uncaught exception:
anything but a 200 response whose body fails to decode. -/
def benignFngAttempt (a : HttpAttempt FngBody) : Prop :=
  ∀ s b, a = HttpAttempt.resp s b → s = 200 → fngParse b ≠ FetchResult.crash

/-- A BTC attempt outcome that cannot raise an uncaught exception. -/
def benignBtcAttempt (a : HttpAttempt BtcBody) : Prop :=
  ∀ s b, a = HttpAttempt.resp s b → s = 200 → btcParse b ≠ FetchResult.crash

/-- Events that touch the local ledger file for writing. -/
def isLedgerWrite : Ev → Bool
  | Ev.appendHeader => true
  | Ev.appendRow _ => true
  | Ev.appendFail => true
  | _ => false

/-! ### Helper lemmas -/

theorem filter_nil_of_all {α : Type} (p : α → Bool) (l : List α)
    (h : ∀ e ∈ l, p e = false) : l.filter p = [] := by
  rw [List.filter_eq_nil_iff]
  intro a ha
  simp [h a ha]

theorem filter_all_true {α : Type} (p : α → Bool) (l : List α)
    (h : ∀ e ∈ l, p e = true) : l.filter p = l := by
  rw [List.filter_eq_self]
  exact h

theorem takeWhile_append_all {α : Type} (p : α → Bool) :
    ∀ l₁ l₂ : List α, (∀ e ∈ l₁, p e = true) →
      (l₁ ++ l₂).takeWhile p = l₁ ++ l₂.takeWhile p := by
  intro l₁
  induction l₁ with
  | nil => intro l₂ _; rfl
  | cons a l ih =>
    intro l₂ h
    have ha := h a (by simp)
    simp only [List.cons_append, List.takeWhile_cons, ha, List.cons.injEq, true_and,
      if_true]
    exact ih l₂ (fun e he => h e (by simp [he]))

theorem takeWhile_cons_false {α : Type} (p : α → Bool) (a : α) (l : List α)
    (h : p a = false) : (a :: l).takeWhile p = [] := by
  simp [List.takeWhile_cons, h]

theorem mem_of_mem_takeWhile {α : Type} {p : α → Bool} {a : α} {l : List α}
    (h : a ∈ l.takeWhile p) : a ∈ l := by
  induction l with
  | nil => simpa using h
  | cons b l ih =>
    rw [List.takeWhile_cons] at h
    by_cases hb : p b
    · simp [hb] at h
      rcases h with h | h
      · simp [h]
      · exact List.mem_cons_of_mem _ (ih h)
    · simp [hb] at h

theorem isBenign_spec (e : Ev) (h : isBenign e = true) :
    isRemoteMut e = false ∧ isWriteOrUpload e = false ∧
    isAppendRowEv e = false ∧ e ≠ Ev.appendFail ∧ e ≠ Ev.netUpload := by
  cases e <;> simp_all [isBenign, isRemoteMut, isWriteOrUpload, isAppendRowEv]

/-- Every event emitted by the FNG retry loop is an HTTP attempt or a
sleep. -/
theorem fngGo_benign (env : Nat → HttpAttempt FngBody) :
    ∀ k i, ∀ e ∈ (fngGo env k i).1, isBenign e = true := by
  intro k
  induction k with
  | zero => intro i e he; simp [fngGo] at he
  | succ k ih =>
    intro i e he
    cases henv : env i with
    | exn =>
      rw [fngGo, henv] at he
      simp at he
      rcases he with h | h | h
      · simp [h, isBenign]
      · simp [h, isBenign]
      · exact ih (i + 1) e h
    | resp s b =>
      rw [fngGo, henv] at he
      by_cases hs : s = 200
      · simp [hs] at he
        simp [he, isBenign]
      · simp [hs] at he
        rcases he with h | h | h
        · simp [h, isBenign]
        · simp [h, isBenign]
        · exact ih (i + 1) e h

/-- Every event emitted by the BTC retry loop is an HTTP attempt or a
sleep. -/
theorem btcGo_benign (env : Nat → HttpAttempt BtcBody) :
    ∀ k i, ∀ e ∈ (btcGo env k i).1, isBenign e = true := by
  intro k
  induction k with
  | zero => intro i e he; simp [btcGo] at he
  | succ k ih =>
    intro i e he
    cases henv : env i with
    | exn =>
      rw [btcGo, henv] at he
      simp at he
      rcases he with h | h | h
      · simp [h, isBenign]
      · simp [h, isBenign]
      · exact ih (i + 1) e h
    | resp s b =>
      rw [btcGo, henv] at he
      by_cases hs : s = 200
      · simp [hs] at he
        simp [he, isBenign]
      · simp [hs] at he
        rcases he with h | h | h
        · simp [h, isBenign]
        · simp [h, isBenign]
        · exact ih (i + 1) e h

/-- Without `DUNE_API_KEY`, `create_dune_table` reports a configuration
error without any network call. -/
theorem create_dune_table_none (r : HttpAttempt String) :
    create_dune_table none r = ([], false) := rfl

/-- The table-creation call emits at most the single create POST. -/
theorem create_dune_table_trace (k : Option String) (r : HttpAttempt String) :
    (create_dune_table k r).1 = [] ∨ (create_dune_table k r).1 = [Ev.netCreate] := by
  cases k with
  | none => left; rfl
  | some kk =>
    cases r with
    | exn => right; rfl
    | resp s body =>
      by_cases h200 : s = 200
      · right; simp [create_dune_table, h200]
      · by_cases h400 : s = 400 ∧ hasAlreadyExists body = true
        · right; simp [create_dune_table, h200, h400]
        · right; simp [create_dune_table, h200, h400]

theorem csvBatch_ne_nil {d : List Merged} (h : d ≠ []) : csvBatch d ≠ [] := by
  simp [csvBatch]
  exact h

theorem benign_append {l₁ l₂ : List Ev}
    (h₁ : ∀ e ∈ l₁, isBenign e = true) (h₂ : ∀ e ∈ l₂, isBenign e = true) :
    ∀ e ∈ l₁ ++ l₂, isBenign e = true := by
  intro e he
  rcases List.mem_append.mp he with h | h
  · exact h₁ e h
  · exact h₂ e h

theorem benign_readLedger : ∀ e ∈ [Ev.readLedger], isBenign e = true := by
  intro e he
  simp at he
  simp [he, isBenign]

/-- Branch analysis of one cycle's trace: a prefix of fetch attempts,
sleeps and ledger reads, followed by nothing (an early exit), by a failed
append, or by the append events, the table-create trace and the upload. -/
theorem trace_cases (w : World) :
    ∃ pre, (∀ e ∈ pre, isBenign e = true) ∧
      ((update_dune_data w).trace = pre ∨
       (update_dune_data w).trace = pre ++ [Ev.appendFail] ∨
       ∃ hdr rows,
         rows ≠ [] ∧ (hdr = [] ∨ hdr = [Ev.appendHeader]) ∧
         (update_dune_data w).trace =
           pre ++ (hdr ++ rows.map Ev.appendRow) ++
             (create_dune_table w.apiKey w.createResp).1 ++
             (if (create_dune_table w.apiKey w.createResp).2 then [Ev.netUpload]
              else [])) := by
  rcases hf : fetch_fng_data w.fngEnv with ⟨tf, rf⟩
  have hbf : ∀ e ∈ tf, isBenign e = true := by
    have h := fngGo_benign w.fngEnv 3 0
    rw [show fngGo w.fngEnv 3 0 = (tf, rf) from hf] at h
    exact h
  cases rf with
  | crash => exact ⟨tf, hbf, Or.inl (by simp [update_dune_data, hf])⟩
  | failure => exact ⟨tf, hbf, Or.inl (by simp [update_dune_data, hf])⟩
  | ok fng =>
    rcases hb : fetch_btc_data w.btcEnv with ⟨tb, rb⟩
    have hbb : ∀ e ∈ tb, isBenign e = true := by
      have h := btcGo_benign w.btcEnv 3 0
      rw [show btcGo w.btcEnv 3 0 = (tb, rb) from hb] at h
      exact h
    have hbfb : ∀ e ∈ tf ++ tb, isBenign e = true := benign_append hbf hbb
    cases rb with
    | crash => exact ⟨tf ++ tb, hbfb, Or.inl (by simp [update_dune_data, hf, hb])⟩
    | failure => exact ⟨tf ++ tb, hbfb, Or.inl (by simp [update_dune_data, hf, hb])⟩
    | ok btc =>
      cases hm : mergeRows fng btc with
      | nil =>
        exact ⟨tf ++ tb, hbfb, Or.inl (by simp [update_dune_data, hf, hb, hm])⟩
      | cons d0 drest =>
        cases hfile : w.file with
        | corrupt =>
          refine ⟨tf ++ tb ++ [Ev.readLedger],
            benign_append hbfb benign_readLedger, Or.inl ?_⟩
          simp [update_dune_data, hf, hb, hm, hfile]
        | absent =>
          have hu : update_dune_data w =
              cycleTail w (tf ++ tb) (d0 :: drest) d0 false [] [] := by
            simp [update_dune_data, hf, hb, hm, hfile]
          refine ⟨tf ++ tb, hbfb, ?_⟩
          rw [hu]
          cases hap : w.appendOk with
          | false =>
            refine Or.inr (Or.inl ?_)
            unfold cycleTail
            rw [hap]
            simp
          | true =>
            refine Or.inr (Or.inr ⟨[Ev.appendHeader], csvBatch (d0 :: drest),
              csvBatch_ne_nil (by simp), Or.inr rfl, ?_⟩)
            rcases hc : create_dune_table w.apiKey w.createResp with ⟨tc, bc⟩
            unfold cycleTail
            rw [hap, hc]
            cases bc
            · simp
            · simp
        | rows rs =>
          have hu : update_dune_data w =
              cycleTail w (tf ++ tb ++ [Ev.readLedger]) (d0 :: drest) d0 true rs
                (rs.map (fun r => r.timestamp)) := by
            simp [update_dune_data, hf, hb, hm, hfile]
          refine ⟨tf ++ tb ++ [Ev.readLedger],
            benign_append hbfb benign_readLedger, ?_⟩
          rw [hu]
          cases hdup : (rs.map (fun r => r.timestamp)).contains (dateStrOfMs d0.tsMs) with
          | true =>
            refine Or.inl ?_
            unfold cycleTail
            rw [hdup]
            simp
          | false =>
            cases hap : w.appendOk with
            | false =>
              refine Or.inr (Or.inl ?_)
              unfold cycleTail
              rw [hdup, hap]
              simp
            | true =>
              refine Or.inr (Or.inr ⟨[], csvBatch (d0 :: drest),
                csvBatch_ne_nil (by simp), Or.inl rfl, ?_⟩)
              rcases hc : create_dune_table w.apiKey w.createResp with ⟨tc, bc⟩
              unfold cycleTail
              rw [hdup, hap, hc]
              cases bc
              · simp
              · simp

/-- Claim C5: In every cycle, no remote mutation (table creation or upload)
is attempted before a ledger data row has been written: every remote
mutation in the trace lies strictly after the first `appendRow` event, and
a cycle whose local append fails performs no remote mutation at all. -/
theorem C5_theorem (w : World) :
    ((update_dune_data w).trace.takeWhile
        (fun e => !isAppendRowEv e)).filter isRemoteMut = [] ∧
    (Ev.appendFail ∈ (update_dune_data w).trace →
      (update_dune_data w).trace.filter isRemoteMut = []) := by
  obtain ⟨pre, hbp, hcase⟩ := trace_cases w
  rcases hcase with h | h | ⟨hdr, rows, hrows, hhdr, h⟩
  · constructor
    · rw [h]
      refine filter_nil_of_all _ _ (fun e he => ?_)
      exact (isBenign_spec e (hbp e (mem_of_mem_takeWhile he))).1
    · intro hmem
      rw [h] at hmem
      have := hbp _ hmem
      simp [isBenign] at this
  · have hq : ∀ e ∈ pre, (!isAppendRowEv e) = true := by
      intro e he
      simp [(isBenign_spec e (hbp e he)).2.2.1]
    have hfa : (pre ++ [Ev.appendFail]).filter isRemoteMut = [] := by
      rw [List.filter_append]
      rw [filter_nil_of_all _ _ (fun e he => (isBenign_spec e (hbp e he)).1)]
      simp [isRemoteMut]
    constructor
    · rw [h, takeWhile_append_all _ _ _ hq]
      have : List.takeWhile (fun e => !isAppendRowEv e) [Ev.appendFail] =
          [Ev.appendFail] := by
        simp [List.takeWhile_cons, isAppendRowEv]
      rw [this]
      exact hfa
    · intro _
      rw [h]
      exact hfa
  · rcases rows with _ | ⟨r0, rest⟩
    · exact absurd rfl hrows
    have hqh : ∀ e ∈ pre ++ hdr, (!isAppendRowEv e) = true := by
      intro e he
      rcases List.mem_append.mp he with h2 | h2
      · simp [(isBenign_spec e (hbp e h2)).2.2.1]
      · rcases hhdr with h3 | h3 <;> rw [h3] at h2 <;> simp at h2
        simp [h2, isAppendRowEv]
    have hmh : ∀ e ∈ pre ++ hdr, isRemoteMut e = false := by
      intro e he
      rcases List.mem_append.mp he with h2 | h2
      · exact (isBenign_spec e (hbp e h2)).1
      · rcases hhdr with h3 | h3 <;> rw [h3] at h2 <;> simp at h2
        simp [h2, isRemoteMut]
    have h2 : (update_dune_data w).trace =
        (pre ++ hdr) ++ (Ev.appendRow r0 ::
          (rest.map Ev.appendRow ++
            (create_dune_table w.apiKey w.createResp).1 ++
            (if (create_dune_table w.apiKey w.createResp).2 then [Ev.netUpload]
             else []))) := by
      rw [h]
      simp [List.append_assoc]
    constructor
    · rw [h2, takeWhile_append_all _ _ _ hqh,
        takeWhile_cons_false _ _ _ (by simp [isAppendRowEv])]
      rw [List.append_nil]
      exact filter_nil_of_all _ _ hmh
    · intro hmem
      exfalso
      rw [h2] at hmem
      simp only [List.mem_append, List.mem_cons, List.mem_map] at hmem
      rcases hmem with (h3 | h3) | h3 | (h3 | h3) | h3
      · have := hbp _ h3
        simp [isBenign] at this
      · rcases hhdr with h4 | h4 <;> rw [h4] at h3 <;> simp at h3
      · exact Ev.noConfusion h3
      · rcases h3 with ⟨r, _, h4⟩
        exact Ev.noConfusion h4
      · rcases create_dune_table_trace w.apiKey w.createResp with hct | hct <;>
          rw [hct] at h3 <;> simp at h3
      · cases hcb : (create_dune_table w.apiKey w.createResp).2 <;>
          rw [hcb] at h3 <;> simp at h3

/-- Witness for C5: a cycle whose CSV append fails (merge succeeded, file
absent, `appendOk` false) performs no remote mutation. -/
theorem C5_witness :
    (update_dune_data
      (⟨fun _ => HttpAttempt.resp 200
          ⟨some [[("value", "72"), ("value_classification", "Greed"),
                  ("timestamp", "1699920000")]]⟩,
        fun _ => HttpAttempt.resp 200 ⟨some [(1699920000000, 100)]⟩,
        FileState.absent, false, some "k", HttpAttempt.resp 200 "ok",
        HttpAttempt.resp 200 "ok"⟩ : World)).trace.filter isRemoteMut = [] :=
  (C5_theorem _).2 (by decide)

/-- Claim C9: Table provisioning is idempotent: a 200 response and a 400
response whose body mentions "already exists" (case-insensitively) are
success; any other response (wrong status, or 400 without that marker) is
a failure, and a cycle whose provisioning failed performs no upload. -/
theorem C9_theorem :
    (∀ k body, create_dune_table (some k) (HttpAttempt.resp 200 body) =
      ([Ev.netCreate], true)) ∧
    (∀ k body, hasAlreadyExists body = true →
      create_dune_table (some k) (HttpAttempt.resp 400 body) =
        ([Ev.netCreate], true)) ∧
    (∀ k s body, s ≠ 200 → ¬(s = 400 ∧ hasAlreadyExists body = true) →
      create_dune_table (some k) (HttpAttempt.resp s body) =
        ([Ev.netCreate], false)) ∧
    (∀ w : World, (create_dune_table w.apiKey w.createResp).2 = false →
      Ev.netUpload ∉ (update_dune_data w).trace) := by
  refine ⟨?_, ?_, ?_, ?_⟩
  · intro k body
    simp [create_dune_table]
  · intro k body hex
    simp [create_dune_table, hex]
  · intro k s body h200 h400
    simp [create_dune_table, h200, h400]
  · intro w hcf hmem
    obtain ⟨pre, hbp, hcase⟩ := trace_cases w
    rcases hcase with h | h | ⟨hdr, rows, hrows, hhdr, h⟩
    · rw [h] at hmem
      have := hbp _ hmem
      simp [isBenign] at this
    · rw [h] at hmem
      rcases List.mem_append.mp hmem with h2 | h2
      · have := hbp _ h2
        simp [isBenign] at this
      · simp at h2
    · rcases rows with _ | ⟨r0, rest⟩
      · exact absurd rfl hrows
      have h2 : (update_dune_data w).trace =
          (pre ++ hdr) ++ (Ev.appendRow r0 ::
            (rest.map Ev.appendRow ++
              (create_dune_table w.apiKey w.createResp).1 ++
              (if (create_dune_table w.apiKey w.createResp).2 then [Ev.netUpload]
               else []))) := by
        rw [h]
        simp [List.append_assoc]
      rw [h2] at hmem
      simp only [List.mem_append, List.mem_cons, List.mem_map] at hmem
      rcases hmem with (h3 | h3) | h3 | (h3 | h3) | h3
      · have := hbp _ h3
        simp [isBenign] at this
      · rcases hhdr with h4 | h4 <;> rw [h4] at h3 <;> simp at h3
      · exact Ev.noConfusion h3
      · rcases h3 with ⟨r, _, h4⟩
        exact Ev.noConfusion h4
      · rcases create_dune_table_trace w.apiKey w.createResp with hct | hct <;>
          rw [hct] at h3 <;> simp at h3
      · rw [hcf] at h3
        simp at h3

/-- Witness for C9: a 400 "already exists" response succeeds, a 500
response fails, and a cycle with a failing provisioning response uploads
nothing. -/
theorem C9_witness :
    create_dune_table (some "key") (HttpAttempt.resp 400 "Table ALREADY exists") =
      ([Ev.netCreate], true) ∧
    create_dune_table (some "key") (HttpAttempt.resp 500 "server error") =
      ([Ev.netCreate], false) ∧
    Ev.netUpload ∉ (update_dune_data
      (⟨fun _ => HttpAttempt.resp 200
          ⟨some [[("value", "72"), ("value_classification", "Greed"),
                  ("timestamp", "1699920000")]]⟩,
        fun _ => HttpAttempt.resp 200 ⟨some [(1699920000000, 100)]⟩,
        FileState.absent, true, some "key", HttpAttempt.resp 500 "server error",
        HttpAttempt.resp 200 "ok"⟩ : World)).trace :=
  ⟨C9_theorem.2.1 "key" "Table ALREADY exists" (by decide),
   C9_theorem.2.2.1 "key" 500 "server error" (by decide) (by decide),
   C9_theorem.2.2.2 _ (by decide)⟩

/-- Claim C6, amended: When `DUNE_API_KEY` is absent, `create_dune_table`
fails with a configuration error before any network call, consequently
the cycle performs no remote mutation at all (in particular no upload),
and the local ledger append of the cycle still occurs; the bulk
historical import however does not check the credential (see the
counterexample). -/
theorem C6_theorem :
    (∀ r, create_dune_table none r = ([], false)) ∧
    (∀ w : World, w.apiKey = none →
      (update_dune_data w).trace.filter isRemoteMut = []) ∧
    (∀ (w : World) (tF tB : List Ev) (F : List FngEntry) (B : List BtcEntry)
        (d0 : Merged) (drest : List Merged),
      w.apiKey = none →
      fetch_fng_data w.fngEnv = (tF, FetchResult.ok F) →
      fetch_btc_data w.btcEnv = (tB, FetchResult.ok B) →
      mergeRows F B = d0 :: drest →
      w.file = FileState.absent →
      w.appendOk = true →
      (update_dune_data w).file = FileState.rows (csvBatch (d0 :: drest))) := by
  refine ⟨fun r => rfl, ?_, ?_⟩
  · intro w hk
    obtain ⟨pre, hbp, hcase⟩ := trace_cases w
    rcases hcase with h | h | ⟨hdr, rows, _, hhdr, h⟩
    · rw [h]
      exact filter_nil_of_all _ _ (fun e he => (isBenign_spec e (hbp e he)).1)
    · rw [h, List.filter_append]
      rw [filter_nil_of_all _ _ (fun e he => (isBenign_spec e (hbp e he)).1)]
      simp [isRemoteMut]
    · rw [h, hk, create_dune_table_none]
      simp only [List.append_nil]
      rw [List.filter_append, List.filter_append]
      rw [filter_nil_of_all _ _ (fun e he => (isBenign_spec e (hbp e he)).1)]
      rw [filter_nil_of_all isRemoteMut (hdr ++ rows.map Ev.appendRow) ?_]
      · simp
      · intro e he
        rcases List.mem_append.mp he with h2 | h2
        · rcases hhdr with h3 | h3 <;> rw [h3] at h2 <;> simp at h2
          simp [h2, isRemoteMut]
        · rcases List.mem_map.mp h2 with ⟨r, _, h3⟩
          simp [← h3, isRemoteMut]
  · intro w tF tB F B d0 drest hk hF hB hd hfile hap
    have hu : update_dune_data w =
        cycleTail w (tF ++ tB) (d0 :: drest) d0 false [] [] := by
      simp [update_dune_data, hF, hB, hd, hfile]
    rw [hu]
    unfold cycleTail
    rw [hap, hk, create_dune_table_none]
    simp

/-- Counterexample to C6 as stated: with `DUNE_API_KEY` absent and a
one-row ledger, the bulk historical import still attempts its batch
insert POST (the server answers 401), instead of short-circuiting before
any network call. -/
theorem C6_counterexample :
    Ev.netInsert 0 1 false ∈
      import_historical_data none
        (FileState.rows [⟨"2023-11-14", 72, some "Greed", 100⟩])
        (fun _ => HttpAttempt.resp 401 "unauthorized") := by
  decide

/-- Witness for C6: with the credential absent, provisioning does nothing
and fails, the cycle mutates nothing remotely, and the one merged row is
still appended to the fresh local ledger. -/
theorem C6_witness :
    create_dune_table none (HttpAttempt.resp 200 "ok") = ([], false) ∧
    (update_dune_data
      (⟨fun _ => HttpAttempt.resp 200
          ⟨some [[("value", "72"), ("value_classification", "Greed"),
                  ("timestamp", "1699920000")]]⟩,
        fun _ => HttpAttempt.resp 200 ⟨some [(1699920000000, 100)]⟩,
        FileState.absent, true, none, HttpAttempt.resp 200 "ok",
        HttpAttempt.resp 200 "ok"⟩ : World)).trace.filter isRemoteMut = [] ∧
    (update_dune_data
      (⟨fun _ => HttpAttempt.resp 200
          ⟨some [[("value", "72"), ("value_classification", "Greed"),
                  ("timestamp", "1699920000")]]⟩,
        fun _ => HttpAttempt.resp 200 ⟨some [(1699920000000, 100)]⟩,
        FileState.absent, true, none, HttpAttempt.resp 200 "ok",
        HttpAttempt.resp 200 "ok"⟩ : World)).file =
      FileState.rows (csvBatch [⟨1699920000000, 72, some "Greed", 100⟩]) :=
  ⟨C6_theorem.1 _,
   C6_theorem.2.1 _ rfl,
   C6_theorem.2.2 _ [Ev.attempt Src.fng 0] [Ev.attempt Src.btc 0]
     [⟨1699920000000, 72, some "Greed"⟩] [⟨1699920000000, 100⟩]
     ⟨1699920000000, 72, some "Greed", 100⟩ []
     rfl (by decide) (by decide) (by decide) rfl rfl⟩

/-- Claim C2, amended: When the merged row's timestamp is at day
granularity (midnight, the case for these daily sources), running the
cycle twice with identical remote responses appends exactly one row to a
fresh ledger: the second run finds the `%Y-%m-%d` string already present,
leaves the file unchanged and performs no write and no upload.  (For a
timestamp with a time-of-day component the stored string differs from the
`%Y-%m-%d` key and the duplicate check fails, see the counterexample.) -/
theorem C2_theorem (w : World) (tF tB : List Ev) (F : List FngEntry)
    (B : List BtcEntry) (d0 : Merged)
    (hF : fetch_fng_data w.fngEnv = (tF, FetchResult.ok F))
    (hB : fetch_btc_data w.btcEnv = (tB, FetchResult.ok B))
    (hd : mergeRows F B = [d0])
    (hmid : d0.tsMs.emod 86400000 = 0)
    (hfile : w.file = FileState.absent)
    (hap : w.appendOk = true) :
    (update_dune_data w).file = FileState.rows (csvBatch [d0]) ∧
    (update_dune_data { w with file := FileState.rows (csvBatch [d0]) }).file =
      FileState.rows (csvBatch [d0]) ∧
    (update_dune_data
        { w with file := FileState.rows (csvBatch [d0]) }).trace.filter
      isWriteOrUpload = [] := by
  have hcsv : csvBatch [d0] =
      [⟨dateStrOfMs d0.tsMs, d0.value, d0.cls, d0.price⟩] := by
    simp [csvBatch, hmid]
  have hbf : ∀ e ∈ tF, isBenign e = true := by
    have h := fngGo_benign w.fngEnv 3 0
    rw [show fngGo w.fngEnv 3 0 = (tF, FetchResult.ok F) from hF] at h
    exact h
  have hbb : ∀ e ∈ tB, isBenign e = true := by
    have h := btcGo_benign w.btcEnv 3 0
    rw [show btcGo w.btcEnv 3 0 = (tB, FetchResult.ok B) from hB] at h
    exact h
  refine ⟨?_, ?_, ?_⟩
  · have hu : update_dune_data w = cycleTail w (tF ++ tB) [d0] d0 false [] [] := by
      simp [update_dune_data, hF, hB, hd, hfile]
    rw [hu]
    unfold cycleTail
    rw [hap]
    rcases hc : create_dune_table w.apiKey w.createResp with ⟨tc, bc⟩
    cases bc <;> simp [hc]
  · have hu2 : update_dune_data { w with file := FileState.rows (csvBatch [d0]) } =
        cycleTail { w with file := FileState.rows (csvBatch [d0]) }
          (tF ++ tB ++ [Ev.readLedger]) [d0] d0 true (csvBatch [d0])
          ((csvBatch [d0]).map (fun r => r.timestamp)) := by
      simp [update_dune_data, hF, hB, hd]
    have hcont : ((csvBatch [d0]).map (fun r => r.timestamp)).contains
        (dateStrOfMs d0.tsMs) = true := by
      rw [hcsv]
      simp
    rw [hu2]
    unfold cycleTail
    rw [hcont]
    simp
  · have hu2 : update_dune_data { w with file := FileState.rows (csvBatch [d0]) } =
        cycleTail { w with file := FileState.rows (csvBatch [d0]) }
          (tF ++ tB ++ [Ev.readLedger]) [d0] d0 true (csvBatch [d0])
          ((csvBatch [d0]).map (fun r => r.timestamp)) := by
      simp [update_dune_data, hF, hB, hd]
    have hcont : ((csvBatch [d0]).map (fun r => r.timestamp)).contains
        (dateStrOfMs d0.tsMs) = true := by
      rw [hcsv]
      simp
    rw [hu2]
    unfold cycleTail
    rw [hcont]
    simp only [if_true]
    rw [List.filter_append, List.filter_append]
    rw [filter_nil_of_all _ _ (fun e he => (isBenign_spec e (hbf e he)).2.1)]
    rw [filter_nil_of_all _ _ (fun e he => (isBenign_spec e (hbb e he)).2.1)]
    simp [isWriteOrUpload]

/-- Counterexample to C2 as stated: with identical remote responses whose
shared timestamp has a time-of-day component (epoch 1700000000 s =
2023-11-14 22:13:20), the first cycle stores the full timestamp string,
the second cycle's `%Y-%m-%d` duplicate check misses it, and a second
identical row for the same calendar date is appended and uploaded. -/
theorem C2_counterexample :
    (update_dune_data
      (⟨fun _ => HttpAttempt.resp 200
          ⟨some [[("value", "72"), ("timestamp", "1700000000")]]⟩,
        fun _ => HttpAttempt.resp 200 ⟨some [(1700000000000, 100)]⟩,
        FileState.absent, true, some "k", HttpAttempt.resp 200 "ok",
        HttpAttempt.resp 200 "ok"⟩ : World)).file =
      FileState.rows [⟨"2023-11-14 22:13:20", 72, none, 100⟩] ∧
    (update_dune_data
      (⟨fun _ => HttpAttempt.resp 200
          ⟨some [[("value", "72"), ("timestamp", "1700000000")]]⟩,
        fun _ => HttpAttempt.resp 200 ⟨some [(1700000000000, 100)]⟩,
        FileState.rows [⟨"2023-11-14 22:13:20", 72, none, 100⟩], true,
        some "k", HttpAttempt.resp 200 "ok",
        HttpAttempt.resp 200 "ok"⟩ : World)).file =
      FileState.rows [⟨"2023-11-14 22:13:20", 72, none, 100⟩,
        ⟨"2023-11-14 22:13:20", 72, none, 100⟩] ∧
    Ev.appendRow ⟨"2023-11-14 22:13:20", 72, none, 100⟩ ∈
      (update_dune_data
        (⟨fun _ => HttpAttempt.resp 200
            ⟨some [[("value", "72"), ("timestamp", "1700000000")]]⟩,
          fun _ => HttpAttempt.resp 200 ⟨some [(1700000000000, 100)]⟩,
          FileState.rows [⟨"2023-11-14 22:13:20", 72, none, 100⟩], true,
          some "k", HttpAttempt.resp 200 "ok",
          HttpAttempt.resp 200 "ok"⟩ : World)).trace ∧
    dateStrOfMs 1700000000000 = "2023-11-14" := by
  refine ⟨by decide, by decide, by decide, by decide⟩

/-- Witness for C2: the midnight scenario of the spec, epoch 1699920000 s
= 2023-11-14 00:00:00; the second run leaves the one-row ledger unchanged
and writes and uploads nothing. -/
theorem C2_witness :
    (update_dune_data
      (⟨fun _ => HttpAttempt.resp 200
          ⟨some [[("value", "72"), ("value_classification", "Greed"),
                  ("timestamp", "1699920000")]]⟩,
        fun _ => HttpAttempt.resp 200 ⟨some [(1699920000000, 100)]⟩,
        FileState.absent, true, some "k", HttpAttempt.resp 200 "ok",
        HttpAttempt.resp 200 "ok"⟩ : World)).file =
      FileState.rows (csvBatch [⟨1699920000000, 72, some "Greed", 100⟩]) ∧
    (update_dune_data
      (⟨fun _ => HttpAttempt.resp 200
          ⟨some [[("value", "72"), ("value_classification", "Greed"),
                  ("timestamp", "1699920000")]]⟩,
        fun _ => HttpAttempt.resp 200 ⟨some [(1699920000000, 100)]⟩,
        FileState.rows (csvBatch [⟨1699920000000, 72, some "Greed", 100⟩]),
        true, some "k", HttpAttempt.resp 200 "ok",
        HttpAttempt.resp 200 "ok"⟩ : World)).file =
      FileState.rows (csvBatch [⟨1699920000000, 72, some "Greed", 100⟩]) ∧
    (update_dune_data
      (⟨fun _ => HttpAttempt.resp 200
          ⟨some [[("value", "72"), ("value_classification", "Greed"),
                  ("timestamp", "1699920000")]]⟩,
        fun _ => HttpAttempt.resp 200 ⟨some [(1699920000000, 100)]⟩,
        FileState.rows (csvBatch [⟨1699920000000, 72, some "Greed", 100⟩]),
        true, some "k", HttpAttempt.resp 200 "ok",
        HttpAttempt.resp 200 "ok"⟩ : World)).trace.filter
      isWriteOrUpload = [] :=
  C2_theorem _ [Ev.attempt Src.fng 0] [Ev.attempt Src.btc 0]
    [⟨1699920000000, 72, some "Greed"⟩] [⟨1699920000000, 100⟩]
    ⟨1699920000000, 72, some "Greed", 100⟩
    (by decide) (by decide) (by decide) (by decide) rfl rfl

theorem benign_not_ledgerWrite (e : Ev) (h : isBenign e = true) :
    isLedgerWrite e = false := by
  cases e <;> simp_all [isBenign, isLedgerWrite]

/-- Claim C10: With both fetches decoded and a nonempty merge: if the ledger
file does not exist, the cycle does not abort — the duplicate check sees
no stored date, and the append writes the header and then the data rows,
creating the file; if the file exists but cannot be parsed, the cycle
stops before any write or upload, leaving the file as it is, without an
escaping exception. -/
theorem C10_theorem (w : World) (tF tB : List Ev) (F : List FngEntry)
    (B : List BtcEntry) (d0 : Merged) (drest : List Merged)
    (hF : fetch_fng_data w.fngEnv = (tF, FetchResult.ok F))
    (hB : fetch_btc_data w.btcEnv = (tB, FetchResult.ok B))
    (hd : mergeRows F B = d0 :: drest) :
    (w.file = FileState.absent → w.appendOk = true →
      (update_dune_data w).trace.filter isLedgerWrite =
        Ev.appendHeader :: (csvBatch (d0 :: drest)).map Ev.appendRow ∧
      (update_dune_data w).file = FileState.rows (csvBatch (d0 :: drest))) ∧
    (w.file = FileState.corrupt →
      (update_dune_data w).trace.filter isWriteOrUpload = [] ∧
      (update_dune_data w).file = FileState.corrupt ∧
      (update_dune_data w).crashed = false) := by
  have hbf : ∀ e ∈ tF, isBenign e = true := by
    have h := fngGo_benign w.fngEnv 3 0
    rw [show fngGo w.fngEnv 3 0 = (tF, FetchResult.ok F) from hF] at h
    exact h
  have hbb : ∀ e ∈ tB, isBenign e = true := by
    have h := btcGo_benign w.btcEnv 3 0
    rw [show btcGo w.btcEnv 3 0 = (tB, FetchResult.ok B) from hB] at h
    exact h
  have hf1 : tF.filter isLedgerWrite = [] :=
    filter_nil_of_all _ _ (fun e he => benign_not_ledgerWrite e (hbf e he))
  have hb1 : tB.filter isLedgerWrite = [] :=
    filter_nil_of_all _ _ (fun e he => benign_not_ledgerWrite e (hbb e he))
  have hmapw : ((csvBatch (d0 :: drest)).map Ev.appendRow).filter isLedgerWrite =
      (csvBatch (d0 :: drest)).map Ev.appendRow := by
    refine filter_all_true _ _ (fun e he => ?_)
    rcases List.mem_map.mp he with ⟨r, _, h3⟩
    simp [← h3, isLedgerWrite]
  constructor
  · intro hfile hap
    have hu : update_dune_data w = cycleTail w (tF ++ tB) (d0 :: drest) d0 false [] [] := by
      simp [update_dune_data, hF, hB, hd, hfile]
    rw [hu]
    unfold cycleTail
    rw [hap]
    rcases hc : create_dune_table w.apiKey w.createResp with ⟨tc, bc⟩
    have hct := create_dune_table_trace w.apiKey w.createResp
    rw [hc] at hct
    cases bc <;> rcases hct with hct | hct <;> subst hct <;>
      simp [List.filter_append, hf1, hb1, hmapw, isLedgerWrite]
  · intro hfile
    have hu : update_dune_data w =
        (⟨tF ++ tB ++ [Ev.readLedger], w.file, false⟩ : CycleOut) := by
      simp [update_dune_data, hF, hB, hd, hfile]
    rw [hu, hfile]
    refine ⟨?_, rfl, rfl⟩
    rw [List.filter_append, List.filter_append]
    rw [filter_nil_of_all _ _ (fun e he => (isBenign_spec e (hbf e he)).2.1)]
    rw [filter_nil_of_all _ _ (fun e he => (isBenign_spec e (hbb e he)).2.1)]
    simp [isWriteOrUpload]

/-- Witness for C10: a fresh ledger gets header plus one row; a corrupt
ledger aborts the cycle with no write, no upload and no crash. -/
theorem C10_witness :
    ((update_dune_data
      (⟨fun _ => HttpAttempt.resp 200
          ⟨some [[("value", "72"), ("value_classification", "Greed"),
                  ("timestamp", "1699920000")]]⟩,
        fun _ => HttpAttempt.resp 200 ⟨some [(1699920000000, 100)]⟩,
        FileState.absent, true, some "k", HttpAttempt.resp 200 "ok",
        HttpAttempt.resp 200 "ok"⟩ : World)).trace.filter isLedgerWrite =
      Ev.appendHeader ::
        (csvBatch [⟨1699920000000, 72, some "Greed", 100⟩]).map Ev.appendRow ∧
    (update_dune_data
      (⟨fun _ => HttpAttempt.resp 200
          ⟨some [[("value", "72"), ("value_classification", "Greed"),
                  ("timestamp", "1699920000")]]⟩,
        fun _ => HttpAttempt.resp 200 ⟨some [(1699920000000, 100)]⟩,
        FileState.absent, true, some "k", HttpAttempt.resp 200 "ok",
        HttpAttempt.resp 200 "ok"⟩ : World)).file =
      FileState.rows (csvBatch [⟨1699920000000, 72, some "Greed", 100⟩])) ∧
    ((update_dune_data
      (⟨fun _ => HttpAttempt.resp 200
          ⟨some [[("value", "72"), ("value_classification", "Greed"),
                  ("timestamp", "1699920000")]]⟩,
        fun _ => HttpAttempt.resp 200 ⟨some [(1699920000000, 100)]⟩,
        FileState.corrupt, true, some "k", HttpAttempt.resp 200 "ok",
        HttpAttempt.resp 200 "ok"⟩ : World)).trace.filter isWriteOrUpload = [] ∧
    (update_dune_data
      (⟨fun _ => HttpAttempt.resp 200
          ⟨some [[("value", "72"), ("value_classification", "Greed"),
                  ("timestamp", "1699920000")]]⟩,
        fun _ => HttpAttempt.resp 200 ⟨some [(1699920000000, 100)]⟩,
        FileState.corrupt, true, some "k", HttpAttempt.resp 200 "ok",
        HttpAttempt.resp 200 "ok"⟩ : World)).file = FileState.corrupt ∧
    (update_dune_data
      (⟨fun _ => HttpAttempt.resp 200
          ⟨some [[("value", "72"), ("value_classification", "Greed"),
                  ("timestamp", "1699920000")]]⟩,
        fun _ => HttpAttempt.resp 200 ⟨some [(1699920000000, 100)]⟩,
        FileState.corrupt, true, some "k", HttpAttempt.resp 200 "ok",
        HttpAttempt.resp 200 "ok"⟩ : World)).crashed = false) :=
  ⟨(C10_theorem _ [Ev.attempt Src.fng 0] [Ev.attempt Src.btc 0]
      [⟨1699920000000, 72, some "Greed"⟩] [⟨1699920000000, 100⟩]
      ⟨1699920000000, 72, some "Greed", 100⟩ []
      (by decide) (by decide) (by decide)).1 rfl rfl,
   (C10_theorem _ [Ev.attempt Src.fng 0] [Ev.attempt Src.btc 0]
      [⟨1699920000000, 72, some "Greed"⟩] [⟨1699920000000, 100⟩]
      ⟨1699920000000, 72, some "Greed", 100⟩ []
      (by decide) (by decide) (by decide)).2 rfl⟩

/-- Under decodable 200 bodies, the FNG retry loop never raises. -/
theorem fngGo_no_crash (env : Nat → HttpAttempt FngBody)
    (h : ∀ i, benignFngAttempt (env i)) :
    ∀ k i, (fngGo env k i).2 ≠ FetchResult.crash := by
  intro k
  induction k with
  | zero => intro i hc; simp [fngGo] at hc
  | succ k ih =>
    intro i hc
    cases henv : env i with
    | exn =>
      rw [fngGo, henv] at hc
      exact ih (i + 1) hc
    | resp s b =>
      rw [fngGo, henv] at hc
      by_cases hs : s = 200
      · simp [hs] at hc
        exact h i s b henv hs hc
      · simp [hs] at hc
        exact ih (i + 1) hc

/-- Under decodable 200 bodies, the BTC retry loop never raises. -/
theorem btcGo_no_crash (env : Nat → HttpAttempt BtcBody)
    (h : ∀ i, benignBtcAttempt (env i)) :
    ∀ k i, (btcGo env k i).2 ≠ FetchResult.crash := by
  intro k
  induction k with
  | zero => intro i hc; simp [btcGo] at hc
  | succ k ih =>
    intro i hc
    cases henv : env i with
    | exn =>
      rw [btcGo, henv] at hc
      exact ih (i + 1) hc
    | resp s b =>
      rw [btcGo, henv] at hc
      by_cases hs : s = 200
      · simp [hs] at hc
        exact h i s b henv hs hc
      · simp [hs] at hc
        exact ih (i + 1) hc

theorem cycleTail_crashed (w : World) (pre : List Ev) (d : List Merged)
    (d0 : Merged) (fe : Bool) (old : List LedgerRow) (ex : List String) :
    (cycleTail w pre d d0 fe old ex).crashed = false := by
  unfold cycleTail
  split
  · rfl
  split
  · rcases hc : create_dune_table w.apiKey w.createResp with ⟨tc, bc⟩
    cases bc <;> rfl
  · rfl

/-- Claim C3, amended: A full run (optional bulk import, then the cycle)
never lets an exception escape as long as every 200 response body decodes
(contains the `data`/`prices` field with numeric `value`/`timestamp`
entries); transport errors, non-200 statuses, empty merges, missing or
corrupt ledger files, failed appends and failed uploads are all handled.
A 200 body missing those fields crashes the run, see the
counterexample. -/
theorem C3_theorem (w : World) (importFlag : Bool)
    (histResp : Nat → HttpAttempt String)
    (hF : ∀ i, benignFngAttempt (w.fngEnv i))
    (hB : ∀ i, benignBtcAttempt (w.btcEnv i)) :
    (main_run w importFlag histResp).2 = false := by
  have hmain : (main_run w importFlag histResp).2 = (update_dune_data w).crashed := by
    simp [main_run]
  rw [hmain]
  rcases hf : fetch_fng_data w.fngEnv with ⟨tf, rf⟩
  cases rf with
  | crash =>
    exfalso
    exact fngGo_no_crash w.fngEnv hF 3 0 (by rw [show fngGo w.fngEnv 3 0 =
      (tf, FetchResult.crash) from hf])
  | failure => simp [update_dune_data, hf]
  | ok fng =>
    rcases hb : fetch_btc_data w.btcEnv with ⟨tb, rb⟩
    cases rb with
    | crash =>
      exfalso
      exact btcGo_no_crash w.btcEnv hB 3 0 (by rw [show btcGo w.btcEnv 3 0 =
        (tb, FetchResult.crash) from hb])
    | failure => simp [update_dune_data, hf, hb]
    | ok btc =>
      cases hm : mergeRows fng btc with
      | nil => simp [update_dune_data, hf, hb, hm]
      | cons d0 drest =>
        cases hfile : w.file with
        | corrupt => simp [update_dune_data, hf, hb, hm, hfile]
        | absent =>
          have hu : update_dune_data w =
              cycleTail w (tf ++ tb) (d0 :: drest) d0 false [] [] := by
            simp [update_dune_data, hf, hb, hm, hfile]
          rw [hu]
          exact cycleTail_crashed _ _ _ _ _ _ _
        | rows rs =>
          have hu : update_dune_data w =
              cycleTail w (tf ++ tb ++ [Ev.readLedger]) (d0 :: drest) d0 true rs
                (rs.map (fun r => r.timestamp)) := by
            simp [update_dune_data, hf, hb, hm, hfile]
          rw [hu]
          exact cycleTail_crashed _ _ _ _ _ _ _

/-- Counterexample to C3 as stated: a 200 sentiment response whose body
lacks the `data` field makes `fetch_fng_data` raise `KeyError`, which is
not caught anywhere, so the exception escapes the top-level run. -/
theorem C3_counterexample :
    (main_run
      (⟨fun _ => HttpAttempt.resp 200 ⟨none⟩,
        fun _ => HttpAttempt.resp 200 ⟨some [(1699920000000, 100)]⟩,
        FileState.absent, true, some "k", HttpAttempt.resp 200 "ok",
        HttpAttempt.resp 200 "ok"⟩ : World) false
      (fun _ => HttpAttempt.exn)).2 = true := by
  decide

/-- Witness for C3: a run whose every fetch attempt is a transport error
completes without an escaping exception. -/
theorem C3_witness :
    (main_run
      (⟨fun _ => HttpAttempt.exn, fun _ => HttpAttempt.exn,
        FileState.absent, true, some "k", HttpAttempt.resp 200 "ok",
        HttpAttempt.resp 200 "ok"⟩ : World) true
      (fun _ => HttpAttempt.exn)).2 = false :=
  C3_theorem _ true _ (fun _ _ _ h => HttpAttempt.noConfusion h)
    (fun _ _ _ h => HttpAttempt.noConfusion h)

theorem fngGo_fail_step (env : Nat → HttpAttempt FngBody) (k i : Nat)
    (h : attemptFails (env i)) :
    fngGo env (k + 1) i =
      (Ev.attempt Src.fng i :: Ev.sleep 10 :: (fngGo env k (i + 1)).1,
       (fngGo env k (i + 1)).2) := by
  cases henv : env i with
  | exn => simp [fngGo, henv]
  | resp s b =>
    have hs : s ≠ 200 := by rw [henv] at h; exact h
    simp [fngGo, henv, hs]

theorem btcGo_fail_step (env : Nat → HttpAttempt BtcBody) (k i : Nat)
    (h : attemptFails (env i)) :
    btcGo env (k + 1) i =
      (Ev.attempt Src.btc i :: Ev.sleep 10 :: (btcGo env k (i + 1)).1,
       (btcGo env k (i + 1)).2) := by
  cases henv : env i with
  | exn => simp [btcGo, henv]
  | resp s b =>
    have hs : s ≠ 200 := by rw [henv] at h; exact h
    simp [btcGo, henv, hs]

/-- Claim C4: Against sources whose every attempt fails (transport error or
non-2xx status), each fetch makes exactly 3 attempts with the fixed
10-second delay after each failed attempt, then returns `None`: the loop
is bounded. -/
theorem C4_theorem (envF : Nat → HttpAttempt FngBody)
    (envB : Nat → HttpAttempt BtcBody)
    (hF : ∀ i, i < 3 → attemptFails (envF i))
    (hB : ∀ i, i < 3 → attemptFails (envB i)) :
    fetch_fng_data envF =
      ([Ev.attempt Src.fng 0, Ev.sleep 10, Ev.attempt Src.fng 1, Ev.sleep 10,
        Ev.attempt Src.fng 2, Ev.sleep 10], FetchResult.failure) ∧
    fetch_btc_data envB =
      ([Ev.attempt Src.btc 0, Ev.sleep 10, Ev.attempt Src.btc 1, Ev.sleep 10,
        Ev.attempt Src.btc 2, Ev.sleep 10], FetchResult.failure) := by
  constructor
  · have e0 : fngGo envF 3 0 =
        (Ev.attempt Src.fng 0 :: Ev.sleep 10 :: (fngGo envF 2 1).1,
         (fngGo envF 2 1).2) := fngGo_fail_step envF 2 0 (hF 0 (by omega))
    have e1 : fngGo envF 2 1 =
        (Ev.attempt Src.fng 1 :: Ev.sleep 10 :: (fngGo envF 1 2).1,
         (fngGo envF 1 2).2) := fngGo_fail_step envF 1 1 (hF 1 (by omega))
    have e2 : fngGo envF 1 2 =
        (Ev.attempt Src.fng 2 :: Ev.sleep 10 :: (fngGo envF 0 3).1,
         (fngGo envF 0 3).2) := fngGo_fail_step envF 0 2 (hF 2 (by omega))
    rw [fetch_fng_data, e0, e1, e2]
    simp [fngGo]
  · have e0 : btcGo envB 3 0 =
        (Ev.attempt Src.btc 0 :: Ev.sleep 10 :: (btcGo envB 2 1).1,
         (btcGo envB 2 1).2) := btcGo_fail_step envB 2 0 (hB 0 (by omega))
    have e1 : btcGo envB 2 1 =
        (Ev.attempt Src.btc 1 :: Ev.sleep 10 :: (btcGo envB 1 2).1,
         (btcGo envB 1 2).2) := btcGo_fail_step envB 1 1 (hB 1 (by omega))
    have e2 : btcGo envB 1 2 =
        (Ev.attempt Src.btc 2 :: Ev.sleep 10 :: (btcGo envB 0 3).1,
         (btcGo envB 0 3).2) := btcGo_fail_step envB 0 2 (hB 2 (by omega))
    rw [fetch_btc_data, e0, e1, e2]
    simp [btcGo]

/-- Witness for C4: sources that raise a transport exception on every
attempt. -/
theorem C4_witness :
    fetch_fng_data (fun _ => HttpAttempt.exn) =
      ([Ev.attempt Src.fng 0, Ev.sleep 10, Ev.attempt Src.fng 1, Ev.sleep 10,
        Ev.attempt Src.fng 2, Ev.sleep 10], FetchResult.failure) ∧
    fetch_btc_data (fun _ => HttpAttempt.exn) =
      ([Ev.attempt Src.btc 0, Ev.sleep 10, Ev.attempt Src.btc 1, Ev.sleep 10,
        Ev.attempt Src.btc 2, Ev.sleep 10], FetchResult.failure) :=
  C4_theorem _ _ (fun _ _ => trivial) (fun _ _ => trivial)

/-- Claim C7, amended: On a 200 sentiment response whose `data` records
lack the `timestamp` column, `fetch_fng_data` logs and returns `None`
immediately, spending no further attempts; the price fetcher has no such
graceful path — a 200 response without `prices` raises immediately
instead of returning `None` (see the counterexample). -/
theorem C7_theorem :
    (∀ (env : Nat → HttpAttempt FngBody) (recs : List (List (String × String))),
      env 0 = HttpAttempt.resp 200 ⟨some recs⟩ →
      colMem "timestamp" recs = false →
      fetch_fng_data env = ([Ev.attempt Src.fng 0], FetchResult.failure)) ∧
    (∀ env : Nat → HttpAttempt BtcBody,
      env 0 = HttpAttempt.resp 200 ⟨none⟩ →
      fetch_btc_data env = ([Ev.attempt Src.btc 0], FetchResult.crash)) := by
  constructor
  · intro env recs h0 hcol
    have e0 : fngGo env 3 0 = ([Ev.attempt Src.fng 0], fngParse ⟨some recs⟩) := by
      rw [show fngGo env 3 0 = fngGo env (2 + 1) 0 from rfl, fngGo, h0]
      simp
    rw [fetch_fng_data, e0]
    simp [fngParse, hcol]
  · intro env h0
    have e0 : btcGo env 3 0 = ([Ev.attempt Src.btc 0], btcParse ⟨none⟩) := by
      rw [show btcGo env 3 0 = btcGo env (2 + 1) 0 from rfl, btcGo, h0]
      simp
    rw [fetch_btc_data, e0]
    simp [btcParse]

/-- Counterexample to C7 as stated: a 200 price response without the
`prices` field makes `fetch_btc_data` raise (`KeyError`), it does not log
and return `None`. -/
theorem C7_counterexample :
    fetch_btc_data (fun _ => HttpAttempt.resp 200 ⟨none⟩) =
      ([Ev.attempt Src.btc 0], FetchResult.crash) ∧
    (fetch_btc_data (fun _ => HttpAttempt.resp 200 ⟨none⟩)).2 ≠
      FetchResult.failure := by
  refine ⟨by decide, by decide⟩

/-- Witness for C7: a sentiment body whose single record has no
`timestamp` key fails fast; a price body without `prices` crashes. -/
theorem C7_witness :
    fetch_fng_data (fun _ => HttpAttempt.resp 200
        ⟨some [[("value", "72"), ("value_classification", "Greed")]]⟩) =
      ([Ev.attempt Src.fng 0], FetchResult.failure) ∧
    fetch_btc_data (fun _ => HttpAttempt.resp 200 ⟨none⟩) =
      ([Ev.attempt Src.btc 0], FetchResult.crash) :=
  ⟨C7_theorem.1 _ [[("value", "72"), ("value_classification", "Greed")]]
     rfl (by decide),
   C7_theorem.2 _ rfl⟩

/-- Claim C1, amended: The join aligns the two frames on the exact
timestamp instant, not on the calendar day: both epochs are normalized to
one datetime (seconds scaled by 1000 to milliseconds by the decoders),
and a merged row exists exactly for each pair of rows whose instants are
equal.  Same-day rows with different instants produce no merged row (see
the counterexample). -/
theorem C1_theorem (F : List FngEntry) (B : List BtcEntry) (m : Merged) :
    m ∈ mergeRows F B ↔
      ∃ f ∈ F, ∃ b ∈ B, f.tsMs = b.tsMs ∧ m = mkMerged f b := by
  induction F with
  | nil => simp [mergeRows]
  | cons f fs ih =>
    constructor
    · intro h
      simp only [mergeRows] at h
      rcases List.mem_append.mp h with h | h
      · rcases List.mem_map.mp h with ⟨b, hbf, hmeq⟩
        rcases List.mem_filter.mp hbf with ⟨hbB, hbeq⟩
        exact ⟨f, List.mem_cons_self f fs, b, hbB,
          (beq_iff_eq.mp hbeq).symm, hmeq.symm⟩
      · rcases ih.mp h with ⟨g, hg, b, hb2, heq, hm2⟩
        exact ⟨g, List.mem_cons_of_mem f hg, b, hb2, heq, hm2⟩
    · rintro ⟨g, hgF, b, hbB, heq, hm2⟩
      simp only [mergeRows]
      rcases List.mem_cons.mp hgF with hgf | hg
      · subst hgf
        refine List.mem_append.mpr (Or.inl ?_)
        exact List.mem_map.mpr
          ⟨b, List.mem_filter.mpr ⟨hbB, beq_iff_eq.mpr heq.symm⟩, hm2.symm⟩
      · exact List.mem_append.mpr (Or.inr (ih.mpr ⟨g, hg, b, hbB, heq, hm2⟩))

/-- Counterexample to C1 as stated: decoded sentiment epoch 86400 s and
price epoch 86400001 ms fall on the same calendar day (1970-01-02) but on
different instants, and the inner merge on the timestamp index produces
no row, where day-level alignment would produce one. -/
theorem C1_counterexample :
    fngParse ⟨some [[("value", "20"), ("timestamp", "86400")]]⟩ =
      FetchResult.ok [⟨86400000, 20, none⟩] ∧
    btcParse ⟨some [(86400001, 100)]⟩ = FetchResult.ok [⟨86400001, 100⟩] ∧
    dayOfMs 86400000 = dayOfMs 86400001 ∧
    mergeRows [⟨86400000, 20, none⟩] [⟨86400001, 100⟩] = [] := by
  refine ⟨by decide, by decide, by decide, by decide⟩

theorem insertSizes_flatten (sz : Nat → Nat) (ok : Nat → Bool) :
    ∀ l : List Nat,
      insertSizes ((l.map (fun j =>
        [Ev.netInsert j (sz j) (ok j), Ev.sleep 1])).flatten) = l.map sz := by
  intro l
  induction l with
  | nil => rfl
  | cons a l ih =>
    rw [List.map_cons, List.flatten_cons]
    show insertSizes ([Ev.netInsert a (sz a) (ok a), Ev.sleep 1] ++ _) = _
    unfold insertSizes at ih ⊢
    rw [List.filterMap_append, ih]
    rfl

theorem count_sleep_flatten (sz : Nat → Nat) (ok : Nat → Bool) :
    ∀ l : List Nat,
      ((l.map (fun j =>
        [Ev.netInsert j (sz j) (ok j), Ev.sleep 1])).flatten).count (Ev.sleep 1) =
        l.length := by
  intro l
  induction l with
  | nil => rfl
  | cons a l ih =>
    rw [List.map_cons, List.flatten_cons]
    rw [List.count_append, ih]
    simp [List.count_cons]
    omega

theorem range_chunk_sizes :
    ∀ q n, (n + 999) / 1000 = q →
      (List.range q).map (fun j => min 1000 (n - 1000 * j)) =
        List.replicate (n / 1000) 1000 ++
          (if n % 1000 = 0 then [] else [n % 1000]) := by
  intro q
  induction q with
  | zero =>
    intro n hq
    have hn : n = 0 := by
      have := (Nat.div_eq_zero_iff (by norm_num : 0 < 1000)).mp hq
      omega
    subst hn
    simp
  | succ q ih =>
    intro n hq
    by_cases hle : n ≤ 1000
    · have h1 : (n + 999) / 1000 ≤ 1 := by
        have h2 : (n + 999) / 1000 ≤ 1999 / 1000 :=
          Nat.div_le_div_right (by omega)
        simpa using h2
      have hq0 : q = 0 := by omega
      subst hq0
      have hn1 : 1 ≤ n := by
        by_contra hz
        have : n = 0 := by omega
        subst this
        simp at hq
      rcases Nat.lt_or_ge n 1000 with hlt | hge
      · have hd : n / 1000 = 0 := Nat.div_eq_of_lt hlt
        have hm : n % 1000 = n := Nat.mod_eq_of_lt hlt
        have hne0 : ¬(n = 0) := by omega
        simp only [List.range_succ, List.range_zero, List.nil_append,
          List.map_cons, List.map_nil, Nat.mul_zero, Nat.sub_zero, hd, hm, hne0,
          if_false, List.replicate, List.nil_append]
        rw [min_eq_right (by omega : n ≤ 1000)]
      · have hn1000 : n = 1000 := by omega
        subst hn1000
        norm_num [List.range_succ, List.replicate]
    · push_neg at hle
      have hq2 : (n - 1000 + 999) / 1000 = q := by
        have hrw : n + 999 = n - 1000 + 999 + 1000 := by omega
        rw [hrw, Nat.add_div_right _ (by norm_num)] at hq
        omega
      have ihq := ih (n - 1000) hq2
      rw [List.range_succ_eq_map, List.map_cons, List.map_map]
      have hcomp : ∀ j, ((fun j => min 1000 (n - 1000 * j)) ∘ Nat.succ) j =
          (fun j => min 1000 (n - 1000 - 1000 * j)) j := by
        intro j
        simp only [Function.comp_apply]
        have harith : n - 1000 * Nat.succ j = n - 1000 - 1000 * j := by omega
        rw [harith]
      have hmapeq := List.map_congr_left (l := List.range q) (fun j _ => hcomp j)
      rw [hmapeq, ihq]
      have hdiv : n / 1000 = (n - 1000) / 1000 + 1 := by
        have hrw : n = n - 1000 + 1000 := by omega
        conv_lhs => rw [hrw]
        rw [Nat.add_div_right _ (by norm_num)]
      have hmod : n % 1000 = (n - 1000) % 1000 := by
        have hrw : n = n - 1000 + 1000 := by omega
        conv_lhs => rw [hrw]
        rw [Nat.add_mod_right]
      rw [hdiv, hmod, List.replicate_succ, List.cons_append]
      congr 1
      omega

/-- Claim C8: The bulk import of a ledger of `n` rows posts consecutive
batches of exactly 1000 rows with a final batch of `n mod 1000` when
nonzero — so 2500 rows give batches of 1000, 1000 and 500 — with one
1-second pause per batch; the batch list does not depend on the per-batch
responses, so a failed batch does not abort the following ones. -/
theorem C8_theorem (key : Option String) (rows : List LedgerRow)
    (resp : Nat → HttpAttempt String) :
    insertSizes (import_historical_data key (FileState.rows rows) resp) =
      List.replicate (rows.length / 1000) 1000 ++
        (if rows.length % 1000 = 0 then [] else [rows.length % 1000]) ∧
    (import_historical_data key (FileState.rows rows) resp).count (Ev.sleep 1) =
      (rows.length + 999) / 1000 ∧
    (∀ row : LedgerRow,
      insertSizes (import_historical_data key
        (FileState.rows (List.replicate 2500 row)) resp) = [1000, 1000, 500]) := by
  have hkey : ∀ rs : List LedgerRow,
      insertSizes (import_historical_data key (FileState.rows rs) resp) =
        List.replicate (rs.length / 1000) 1000 ++
          (if rs.length % 1000 = 0 then [] else [rs.length % 1000]) := by
    intro rs
    have h1 : insertSizes (import_historical_data key (FileState.rows rs) resp) =
        insertSizes (importLoop resp rs) := by
      simp [import_historical_data, insertSizes]
    rw [h1]
    unfold importLoop
    rw [insertSizes_flatten (fun j => ((rs.drop (1000 * j)).take 1000).length)
      (fun j => respOk (resp j))]
    have h2 : (List.range ((rs.length + 999) / 1000)).map
        (fun j => ((rs.drop (1000 * j)).take 1000).length) =
        (List.range ((rs.length + 999) / 1000)).map
          (fun j => min 1000 (rs.length - 1000 * j)) := by
      refine List.map_congr_left (fun j _ => ?_)
      simp [List.length_take, List.length_drop]
    rw [h2]
    exact range_chunk_sizes _ rs.length rfl
  refine ⟨hkey rows, ?_, ?_⟩
  · have h1 : (import_historical_data key (FileState.rows rows) resp).count
        (Ev.sleep 1) = (importLoop resp rows).count (Ev.sleep 1) := by
      simp [import_historical_data, List.count_cons]
    rw [h1]
    unfold importLoop
    rw [count_sleep_flatten (fun j => ((rows.drop (1000 * j)).take 1000).length)
      (fun j => respOk (resp j))]
    simp
  · intro row
    rw [hkey (List.replicate 2500 row), List.length_replicate]
    norm_num
    decide
